import Mathlib

/-!
Verification development for the AutoAudit evidence-scanning pipeline
(src/security/aa_ui/ui.py and src/security/backend/scanner.py).

The Python code is shallowly embedded: pure fragments become Lean functions,
the fallible third-party parsers (PIL+pytesseract OCR, PyMuPDF, python-docx)
become oracle parameters whose value none stands for the library raising on
corrupt input, and byte strings become List Nat (each entry one byte).
-/

namespace AutoAudit

/-! ## Python string semantics helpers -/

/-- Whitespace characters stripped by the Python method str.strip with no
arguments (ASCII part; the claims only exercise ASCII text). -/
def pyIsSpace (c : Char) : Bool :=
  c = ' ' || c = '\t' || c = '\n' || c = '\r' || c = Char.ofNat 11 || c = Char.ofNat 12

/-- Python str.strip(): drop leading and trailing whitespace. -/
def pyStrip (s : String) : String :=
  ⟨((s.toList.dropWhile pyIsSpace).reverse.dropWhile pyIsSpace).reverse⟩

/-- Truthiness test used by the code (`if not text.strip()`): the stripped
string is empty, i.e. the text is empty or all whitespace. -/
def isBlank (s : String) : Bool :=
  pyStrip s = ""

/-- Python str.lower() (ASCII case folding; the extensions and strategy names
involved are ASCII). -/
def pyLower (s : String) : String :=
  ⟨s.toList.map Char.toLower⟩

/-- Index of the last dot of a file name, if any. -/
def lastDotIdx (cs : List Char) : Option Nat :=
  match cs.reverse.findIdx? (fun c => c = '.') with
  | none => none
  | some j => some (cs.length - 1 - j)

/-- pathlib suffix of a plain file name (no directory separators): the part
from the last dot on, provided that dot is neither the first nor the last
character; otherwise the empty string. -/
def pySuffix (name : String) : String :=
  match lastDotIdx name.toList with
  | none => ""
  | some i =>
    if 0 < i && i + 1 < name.toList.length then ⟨name.toList.drop i⟩ else ""

/-- pathlib stem of a plain file name: the name with its suffix removed. -/
def pyStem (name : String) : String :=
  match lastDotIdx name.toList with
  | none => name
  | some i =>
    if 0 < i && i + 1 < name.toList.length then ⟨name.toList.take i⟩ else name

/-! ## UTF-8 decoding (bytes.decode with an error handler)

ui.py line 97 runs data.decode("utf-8", errors="ignore"). The decoder below
follows the UTF-8 acceptance ranges (RFC 3629: no overlong forms, no
surrogates, max U+10FFFF); on an invalid maximal subpart it emits err and
resynchronises, so err = [] is the ignore handler (invalid bytes dropped) and
err = [U+FFFD] is the replace handler. -/

/-- A UTF-8 continuation byte. -/
def isCont (b : Nat) : Bool := 0x80 ≤ b && b ≤ 0xBF

/-- Allowed first continuation byte after a three-byte lead. -/
def cont1Ok3 (b c : Nat) : Bool :=
  if b = 0xE0 then 0xA0 ≤ c && c ≤ 0xBF
  else if b = 0xED then 0x80 ≤ c && c ≤ 0x9F
  else isCont c

/-- Allowed first continuation byte after a four-byte lead. -/
def cont1Ok4 (b c : Nat) : Bool :=
  if b = 0xF0 then 0x90 ≤ c && c ≤ 0xBF
  else if b = 0xF4 then 0x80 ≤ c && c ≤ 0x8F
  else isCont c

/-- UTF-8 decoding with an error handler: err is emitted in place of each
maximal invalid subpart. The fuel argument only drives the recursion; every
step consumes at least one byte, so any fuel at least the byte count gives
the decoding (see utf8DecodeWith below). -/
def utf8DecodeAux (err : List Char) : Nat → List Nat → List Char
  | _, [] => []
  | 0, _ => []
  | fuel + 1, b :: rest =>
    if b < 0x80 then
      Char.ofNat b :: utf8DecodeAux err fuel rest
    else if 0xC2 ≤ b && b ≤ 0xDF then
      match rest with
      | [] => err
      | c1 :: rest2 =>
        if isCont c1 then
          Char.ofNat ((b - 0xC0) * 64 + (c1 - 0x80)) ::
            utf8DecodeAux err fuel rest2
        else err ++ utf8DecodeAux err fuel (c1 :: rest2)
    else if 0xE0 ≤ b && b ≤ 0xEF then
      match rest with
      | [] => err
      | c1 :: rest2 =>
        if cont1Ok3 b c1 then
          match rest2 with
          | [] => err
          | c2 :: rest3 =>
            if isCont c2 then
              Char.ofNat ((b - 0xE0) * 4096 + (c1 - 0x80) * 64 + (c2 - 0x80)) ::
                utf8DecodeAux err fuel rest3
            else err ++ utf8DecodeAux err fuel (c2 :: rest3)
        else err ++ utf8DecodeAux err fuel (c1 :: rest2)
    else if 0xF0 ≤ b && b ≤ 0xF4 then
      match rest with
      | [] => err
      | c1 :: rest2 =>
        if cont1Ok4 b c1 then
          match rest2 with
          | [] => err
          | c2 :: rest3 =>
            if isCont c2 then
              match rest3 with
              | [] => err
              | c3 :: rest4 =>
                if isCont c3 then
                  Char.ofNat ((b - 0xF0) * 262144 + (c1 - 0x80) * 4096 +
                      (c2 - 0x80) * 64 + (c3 - 0x80)) ::
                    utf8DecodeAux err fuel rest4
                else err ++ utf8DecodeAux err fuel (c3 :: rest4)
            else err ++ utf8DecodeAux err fuel (c2 :: rest3)
        else err ++ utf8DecodeAux err fuel (c1 :: rest2)
    else err ++ utf8DecodeAux err fuel rest

/-- UTF-8 decoding with an error handler, run with enough fuel. -/
def utf8DecodeWith (err : List Char) (data : List Nat) : List Char :=
  utf8DecodeAux err data.length data

/-- data.decode("utf-8", errors="ignore"): undecodable subparts are dropped. -/
def pyDecodeIgnore (data : List Nat) : String :=
  ⟨utf8DecodeWith [] data⟩

/-- For comparison with the spec wording only: the decoder the spec describes
("undecodable byte sequences are replaced"), i.e. errors="replace", which
substitutes U+FFFD for each undecodable subpart. -/
def specDecodeReplace (data : List Nat) : String :=
  ⟨utf8DecodeWith [Char.ofNat 0xFFFD] data⟩

/-! ## Extraction (ui.py lines 38-98)

The three third-party parsers are modelled as oracles carried by ExtractEnv:
a value none stands for the parser raising on the given bytes (PIL
UnidentifiedImageError/OSError for images, any exception for PyMuPDF and
python-docx, all of which the code catches). File-system paths are strings;
the preview component of the result is the path the code writes, or none when
no preview file is produced. -/

/-- A parsed word-processing document: paragraph texts in document order and
tables as rows of cell texts. -/
structure DocxDoc where
  paragraphs : List String
  tables : List (List (List String))
deriving DecidableEq

/-- Outcome of the third-party parsers on one byte payload. none means the
parser raised (corrupt or unsupported content). For a parsed PDF, pdfPages
holds the per-page text of page.get_text() in page order. -/
structure ExtractEnv where
  ocr : Option String
  pdfPages : Option (List String)
  docx : Option DocxDoc

/-- ui.py _ocr_image_bytes: OCR text of the image, empty on decode failure. -/
def _ocr_image_bytes (ocr : Option String) : String :=
  match ocr with
  | some t => t
  | none => ""

/-- ui.py _extract_pdf_bytes: page texts joined in page order; when at least
one page exists the first page is rendered to previews_dir/stem_page1.png;
parse failure gives ("", none). -/
def _extract_pdf_bytes (pdf : Option (List String)) (previewsDir stem : String) :
    String × Option String :=
  match pdf with
  | none => ("", none)
  | some pages =>
    let text := String.join pages
    if pages.length > 0 then
      (text, some (previewsDir ++ "/" ++ stem ++ "_page1.png"))
    else
      (text, none)

/-- ui.py _extract_docx_bytes: non-empty paragraph texts in order, then
non-empty table cell texts in row-major order, joined by newlines; parse
failure gives the empty string. -/
def _extract_docx_bytes (docx : Option DocxDoc) : String :=
  match docx with
  | none => ""
  | some doc =>
    let parts := doc.paragraphs.foldl
      (fun acc p => if p ≠ "" then acc ++ [p] else acc) []
    let parts2 := doc.tables.foldl
      (fun acc tbl => tbl.foldl
        (fun acc2 row => row.foldl
          (fun acc3 cell => if cell ≠ "" then acc3 ++ [cell] else acc3) acc2)
        acc)
      parts
    String.intercalate "\n" parts2

/-- Image extensions dispatched to OCR (ui.py line 85). -/
def IMAGE_EXTS : List String :=
  [".png", ".jpg", ".jpeg", ".tif", ".tiff", ".bmp", ".webp"]

/-- Plain-text extensions dispatched to lossy text decoding (ui.py line 96). -/
def TEXT_EXTS : List String :=
  [".txt", ".log", ".reg", ".csv", ".ini", ".json", ".xml", ".htm", ".html"]

/-- ui.py extract_text_and_preview_bytes: dispatch on the lower-cased suffix.
Image files always get a verbatim byte copy written as
previewsDir/filename; unknown extensions are a silent no-op. -/
def extract_text_and_preview_bytes (filename : String) (data : List Nat)
    (env : ExtractEnv) (previewsDir : String) : String × Option String :=
  let ext := pyLower (pySuffix filename)
  if IMAGE_EXTS.contains ext then
    (_ocr_image_bytes env.ocr, some (previewsDir ++ "/" ++ filename))
  else if ext = ".pdf" then
    _extract_pdf_bytes env.pdfPages previewsDir (pyStem filename)
  else if ext = ".docx" then
    (_extract_docx_bytes env.docx, none)
  else if TEXT_EXTS.contains ext then
    (pyDecodeIgnore data, none)
  else
    ("", none)

/-! ## Strategies, findings and rows -/

/-- One structured finding produced by a rich rule engine (the dict fields
read by ui.py lines 214-222 and scanner.py lines 176-182). A key missing from
the dict is read back as the empty string, so fields are total here. -/
structure Finding where
  test_id : String
  sub_strategy : String
  detected_level : String
  pass_fail : String
  priority : String
  recommendation : String
  evidence : List String
deriving DecidableEq

/-- The dual matching contract of a strategy (spec 4.6): either the rich
emit_hits(text, source_file) engine or the legacy match(text) raw-hit engine.
The code dispatches with hasattr(strategy, "emit_hits"). -/
inductive Matcher where
  | rich (emit_hits : String → String → List Finding)
  | legacy (matchRules : String → List String)

/-- A registered strategy. Modelled from the spec: the strategies module
(load_strategies) is not under src; spec 3 describes a strategy as a unique
name plus the matching capability of 4.6 (the description is not used by the
claims). -/
structure Strategy where
  name : String
  matcher : Matcher

/-- One row of the tabular output, scanner.py line 125 header order:
UserID, Image, Strategy, TestID, Sub-Strategy, ML Level, Pass/Fail, Priority,
Recommendation, Evidence Extract. -/
structure Row where
  userId : String
  image : String
  strategy : String
  testId : String
  subStrategy : String
  mlLevel : String
  passFail : String
  priority : String
  recommendation : String
  evidenceExtract : String
deriving DecidableEq

/-- The NO_TEXT sentinel row (scanner.py lines 156-161). -/
def NO_TEXT_row (userId fname stratName : String) : Row :=
  ⟨userId, fname, stratName, "", "", "", "NO_TEXT", "Low",
    "OCR could not read this file. Try a clearer screenshot.", ""⟩

/-- The NO_MATCH sentinel row (scanner.py lines 198-203). -/
def NO_MATCH_row (userId fname stratName : String) : Row :=
  ⟨userId, fname, stratName, "", "", "", "NO_MATCH", "Low",
    "No rule matched this file.", ""⟩

/-- The legacy-path hit row of the batch scanner (scanner.py lines 188-193). -/
def HIT_row (userId fname stratName : String) (hits : List String) : Row :=
  ⟨userId, fname, stratName, "", "", "", "HIT", "Medium",
    "Heuristic match.", String.intercalate ", " hits⟩

/-- A row flattened from one rich finding (scanner.py lines 172-183). -/
def finding_row (userId fname stratName : String) (r : Finding) : Row :=
  ⟨userId, fname, stratName, r.test_id, r.sub_strategy, r.detected_level,
    r.pass_fail, r.priority, r.recommendation,
    String.intercalate "; " r.evidence⟩

/-! ## Batch scanner aggregation (scanner.py main, lines 149-203) -/

/-- The per-file, per-strategy body of the scan loop (scanner.py lines
149-203): the rows appended for this (file, strategy) pair, paired with the
number of times the rule engine (emit_hits or match) was invoked on the
extracted text. -/
def processFile (userId : String) (strat : Strategy) (fname : String)
    (rawText : String) : List Row × Nat :=
  if isBlank rawText then
    ([NO_TEXT_row userId fname strat.name], 0)
  else
    match strat.matcher with
    | .rich emit =>
      let rows := (emit rawText fname).map (finding_row userId fname strat.name)
      if rows.length = 0 then
        ([NO_MATCH_row userId fname strat.name], 1)
      else
        (rows, 1)
    | .legacy m =>
      let hits := m rawText
      if hits.isEmpty then
        ([NO_MATCH_row userId fname strat.name], 1)
      else
        ([HIT_row userId fname strat.name hits], 1)

/-- Modelled from the spec: SUPPORTED_ALL_EXTS lives in backend/core_ocr.py,
which is not under src; the spec lists the format families image/OCR, PDF,
word-processing document and plain text (spec 2 and 4.1-4.5). -/
def SUPPORTED_ALL_EXTS : List String :=
  IMAGE_EXTS ++ [".pdf", ".docx"] ++ TEXT_EXTS

/-- Insert x into a list that is already ordered by le, after every element
that compares le to x (so elements with equal keys keep their relative
order). -/
def insertSortedBy (le : String → String → Bool) (x : String) :
    List String → List String
  | [] => [x]
  | y :: ys => if le y x then y :: insertSortedBy le x ys else x :: y :: ys

/-- The Python built-in sorted: a stable sort, modelled as left-to-right
stable insertion. -/
def pySortedBy (le : String → String → Bool) (l : List String) : List String :=
  l.foldl (fun acc x => insertSortedBy le x acc) []

/-- Lexicographic order on code-point sequences: how Python compares
strings. -/
def charListLe : List Char → List Char → Bool
  | [], _ => true
  | _ :: _, [] => false
  | a :: as, b :: bs =>
    if a.toNat < b.toNat then true
    else if b.toNat < a.toNat then false
    else charListLe as bs

/-- The key order of sorted(out, key=lambda x: x.name.lower()): compare the
lower-cased names. -/
def lowerLe (a b : String) : Bool :=
  charListLe (pyLower a).toList (pyLower b).toList

/-- scanner.py list_supported_files: keep the supported extensions and sort by
the lower-cased file name (sorted with key x.name.lower(), a stable sort).
The recursive directory walk is abstracted to its resulting list of file
names. -/
def list_supported_files (listing : List String) : List String :=
  pySortedBy lowerLe
    (listing.filter (fun p => SUPPORTED_ALL_EXTS.contains (pyLower (pySuffix p))))

/-- scanner.py STRAT_DIR_MAP. -/
def STRAT_DIR_MAP : List (String × String) :=
  [("application control", "application_control"),
   ("restrict admin privileges", "restrict_admin_privileges"),
   ("patch applications", "patch_applications"),
   ("patch operating systems", "patch_operating_systems"),
   ("configure microsoft office macro settings", "configure_macro_settings"),
   ("multi-factor authentication", "multi_factor_authentication"),
   ("regular backups", "regular_backups"),
   ("user application hardening", "user_application_hardening")]

/-- Python dict lookup returning None when the key is absent. -/
def lookupMap (m : List (String × String)) (k : String) : Option String :=
  (m.find? (fun kv => kv.1 = k)).map (fun kv => kv.2)

/-- The file-system and extraction context of one batch run: the directory
walk (rglob) per directory and the extracted text per file. -/
structure BatchEnv where
  dirListing : String → List String
  textOf : String → String

/-- scanner.py lines 131-140: the files scanned for one strategy — the mapped
sub-directory of the base directory when STRAT_DIR_MAP knows the strategy,
falling back to the base directory when that yields no files. -/
def filesForStrategy (baseDir : String) (env : BatchEnv) (strat : Strategy) :
    List String :=
  let stratKey := pyStrip (pyLower strat.name)
  match lookupMap STRAT_DIR_MAP stratKey with
  | some sub =>
    let preferred := list_supported_files (env.dirListing (baseDir ++ "/" ++ sub))
    if preferred.isEmpty then list_supported_files (env.dirListing baseDir)
    else preferred
  | none =>
    let preferred := list_supported_files (env.dirListing baseDir)
    if preferred.isEmpty then list_supported_files (env.dirListing baseDir)
    else preferred

/-- scanner.py main, lines 111-203: the data rows accumulated into
report_rows (the fixed header row at line 124 is not part of this list).
chosenNames is the set of names the user picked from the menu; note the code
rebuilds chosen_strategies by filtering the registry list against that set. -/
def mainRows (userId : String) (strategies : List Strategy)
    (chosenNames : List String) (baseDir : String) (env : BatchEnv) : List Row :=
  let chosenStrategies := strategies.filter (fun s => chosenNames.contains s.name)
  chosenStrategies.foldl
    (fun acc strat =>
      let files := filesForStrategy baseDir env strat
      if files.isEmpty then acc
      else files.foldl
        (fun acc2 f => acc2 ++ (processFile userId strat f (env.textOf f)).1)
        acc)
    []

/-- For comparison with the spec wording only (spec 4.7): rows ordered with
the outer loop over the selected strategies in the order the user chose them,
then files, then finding order. -/
def specOrderedRows (userId : String) (strategies : List Strategy)
    (userOrder : List String) (baseDir : String) (env : BatchEnv) : List Row :=
  (userOrder.filterMap (fun n => strategies.find? (fun s => s.name = n))).flatMap
    (fun strat => (filesForStrategy baseDir env strat).flatMap
      (fun f => (processFile userId strat f (env.textOf f)).1))

/-! ## UI scan endpoint (ui.py scan, lines 168-232) -/

/-- The observable response of the scan endpoint: an HTTPException with its
status code and detail, the no-readable-text JSON note (ok with findings []
and reports []), or the success JSON with findings and generated report
names. -/
inductive ScanResponse where
  | httpError (statusCode : Nat) (detail : String)
  | noTextNote
  | ok (findings : List Finding) (reports : List String)
deriving DecidableEq

/-- The single Finding the legacy-contract boundary adapter synthesizes in
ui.py lines 194-202: all structured fields blank, evidence set to the raw
hits. -/
def uiLegacyFinding (hits : List String) : Finding :=
  ⟨"", "", "", "", "", "", hits⟩

/-- ui.py scan: strategy lookup, empty-upload check, extraction, blank-text
note, rule evaluation (rich, or the legacy adapter), report generation. The
second component lists the files written, in order: the preview artifact (if
extraction wrote one) then the generated report files, whose names come from
the pdfNames oracle standing for generate_pdf (reports/report_service.py is
outside src). -/
def scan (strategies : List Strategy) (strategyName userId filename : String)
    (content : List Nat) (env : ExtractEnv) (previewsDir : String)
    (pdfNames : Nat → String) : ScanResponse × List String :=
  match strategies.find? (fun s => s.name = strategyName) with
  | none => (.httpError 400 ("Unknown strategy: " ++ strategyName), [])
  | some strategy =>
    if content.isEmpty then
      (.httpError 400 "Empty upload", [])
    else
      let extracted := extract_text_and_preview_bytes filename content env previewsDir
      let extractionWrites := extracted.2.toList
      if isBlank extracted.1 then
        (.noTextNote, extractionWrites)
      else
        let findings :=
          match strategy.matcher with
          | .rich emit => emit extracted.1 filename
          | .legacy m =>
            let hits := m extracted.1
            if hits.isEmpty then [] else [uiLegacyFinding hits]
        let reports := (List.range findings.length).map pdfNames
        (.ok findings reports, extractionWrites ++ reports)

/-! ## In-memory run log (ui.py lines 27-35, 136-147) -/

/-- One run-log entry (the dict appended by _push_mem_log). -/
structure RunLogEntry where
  ts : String
  user : String
  strategy : String
  status : String
deriving DecidableEq

/-- ui.py _push_mem_log: SCAN_MEM is a deque with maxlen 50 into which entries
go by appendleft, so the list model is newest-first and an append at capacity
evicts the rightmost (oldest) element. -/
def _push_mem_log (ts user strategy status : String)
    (log : List RunLogEntry) : List RunLogEntry :=
  (⟨ts, user, strategy, status⟩ :: log).take 50

/-- Sequential appends, oldest first in es. -/
def memPushAll (es : List RunLogEntry) (log : List RunLogEntry) :
    List RunLogEntry :=
  es.foldl (fun l e => _push_mem_log e.ts e.user e.strategy e.status l) log

/-- ui.py api_get_scan_mem_log: list(SCAN_MEM) reads the deque left to right
(newest first); the snapshot is returned and the buffer is unchanged. -/
def api_get_scan_mem_log (log : List RunLogEntry) :
    List RunLogEntry × List RunLogEntry :=
  (log, log)

/-- Python dict.get on a string-valued JSON payload: None when absent. -/
def pyGet (payload : List (String × String)) (k : String) : Option String :=
  (payload.find? (fun kv => kv.1 = k)).map (fun kv => kv.2)

/-- The Python expression a or d for a : Optional[str]: d when a is None or
the empty (falsy) string. -/
def pyOrStr : Option String → String → String
  | some s, d => if s = "" then d else s
  | none, d => d

/-- ui.py api_post_scan_mem_log: push an entry built from the payload with the
fallback chains user or user_id or "user", strategy or strategy_name or "",
status or "success"; the status value is not validated. The timestamp
datetime.now() is passed in as ts. (The endpoint also returns ok: true.) -/
def api_post_scan_mem_log (ts : String) (payload : List (String × String))
    (log : List RunLogEntry) : List RunLogEntry :=
  _push_mem_log ts
    (pyOrStr (pyGet payload "user") (pyOrStr (pyGet payload "user_id") "user"))
    (pyOrStr (pyGet payload "strategy") (pyOrStr (pyGet payload "strategy_name") ""))
    (pyOrStr (pyGet payload "status") "success")
    log

/-! ## Concrete instances used to settle the claims on explicit inputs -/

/-- The oracle of a payload every parser rejects: corrupt bytes. -/
def failEnv : ExtractEnv := ⟨none, none, none⟩

/-- The bytes of the ASCII text ABC123. -/
def abc123Bytes : List Nat := [65, 66, 67, 49, 50, 51]

/-- A legacy-contract strategy whose rule set always yields two raw hits. -/
def c1LegacyStrategy : Strategy := ⟨"s1", .legacy (fun _ => ["alpha", "beta"])⟩

/-- A legacy-contract strategy whose rule set never matches. -/
def c5EmptyLegacy : Strategy := ⟨"s2", .legacy (fun _ => [])⟩

/-- 51 distinct run-log entries, oldest first. -/
def c6Entries : List RunLogEntry :=
  (List.range 51).map (fun i => ⟨toString i, "u", "s", "success"⟩)

/-- Registry strategies for the ordering claim, registry order alpha then
beta. -/
def c8StratA : Strategy := ⟨"alpha", .legacy (fun _ => ["a"])⟩

def c8StratB : Strategy := ⟨"beta", .legacy (fun _ => ["b"])⟩

/-- A batch context with a single evidence file of non-blank text. -/
def c8Env : BatchEnv := ⟨fun _ => ["e.txt"], fun _ => "text"⟩

/-- The word-processing document of the spec example: paragraphs
Policy A, empty, Policy B, and one 1x2 table. -/
def c9Doc : DocxDoc := ⟨["Policy A", "", "Policy B"], [[["x", "y"]]]⟩

/-! ## Helper lemmas -/

lemma foldl_append_eq_flatMap {α β : Type} (g : α → List β) :
    ∀ (l : List α) (init : List β),
      l.foldl (fun acc x => acc ++ g x) init = init ++ l.flatMap g := by
  intro l
  induction l with
  | nil => intro init; simp
  | cons x xs ih => intro init; simp [ih, List.flatMap_cons]

lemma foldl_filter_append :
    ∀ (l : List String) (acc : List String),
      l.foldl (fun a x => if x ≠ "" then a ++ [x] else a) acc =
        acc ++ l.filter (fun x => x ≠ "") := by
  intro l
  induction l with
  | nil => intro acc; simp
  | cons x xs ih =>
    intro acc
    simp only [List.foldl_cons, List.filter_cons]
    by_cases hx : x = ""
    · rw [if_neg (by simp [hx]), ih acc]
      simp [hx]
    · rw [if_pos hx, ih (acc ++ [x])]
      simp [hx, List.append_assoc]

lemma docx_table_fold (tbl : List (List String)) :
    ∀ acc : List String,
      tbl.foldl
        (fun a row => row.foldl
          (fun a2 c => if c ≠ "" then a2 ++ [c] else a2) a) acc =
      acc ++ (tbl.flatMap id).filter (fun c => c ≠ "") := by
  induction tbl with
  | nil => intro acc; simp
  | cons row rows ih =>
    intro acc
    simp only [List.foldl_cons]
    rw [foldl_filter_append row acc, ih]
    simp [List.flatMap_cons, List.filter_append, List.append_assoc]

lemma docx_tables_fold (tables : List (List (List String))) :
    ∀ acc : List String,
      tables.foldl
        (fun a tbl => tbl.foldl
          (fun a2 row => row.foldl
            (fun a3 c => if c ≠ "" then a3 ++ [c] else a3) a2) a) acc =
      acc ++ (tables.flatMap (fun t => t.flatMap id)).filter (fun c => c ≠ "") := by
  induction tables with
  | nil => intro acc; simp
  | cons tbl tbls ih =>
    intro acc
    simp only [List.foldl_cons]
    rw [docx_table_fold tbl acc, ih]
    simp [List.flatMap_cons, List.filter_append, List.append_assoc]

lemma take_append_take {α : Type} (n : Nat) (a x : List α) :
    (a ++ x.take n).take n = (a ++ x).take n := by
  rw [List.take_append_eq_append_take, List.take_append_eq_append_take,
    List.take_take]
  have h : (n - a.length) ⊓ n = n - a.length := min_eq_left (Nat.sub_le n a.length)
  rw [h]

lemma memPushAll_eq :
    ∀ (es : List RunLogEntry) (log : List RunLogEntry), log.length ≤ 50 →
      memPushAll es log = (es.reverse ++ log).take 50 := by
  intro es
  induction es with
  | nil => intro log h; simp [memPushAll, List.take_of_length_le h]
  | cons e es ih =>
    intro log h
    have step : memPushAll (e :: es) log =
        memPushAll es ((⟨e.ts, e.user, e.strategy, e.status⟩ :: log).take 50) := by
      simp [memPushAll, _push_mem_log]
    rw [step, ih _ (by simp), take_append_take]
    simp [List.append_assoc]

lemma charListLe_total : ∀ as bs, charListLe as bs = true ∨ charListLe bs as = true := by
  intro as
  induction as with
  | nil => intro bs; left; rfl
  | cons a as ih =>
    intro bs
    cases bs with
    | nil => right; rfl
    | cons b bs =>
      by_cases h1 : a.toNat < b.toNat
      · left; simp [charListLe, h1]
      · by_cases h2 : b.toNat < a.toNat
        · right; simp [charListLe, h1, h2]
        · rcases ih bs with h | h
          · left; simp [charListLe, h1, h2, h]
          · right; simp [charListLe, h1, h2, h]

lemma charListLe_trans :
    ∀ as bs cs, charListLe as bs = true → charListLe bs cs = true →
      charListLe as cs = true := by
  intro as
  induction as with
  | nil => intro bs cs _ _; rfl
  | cons a as ih =>
    intro bs cs h1 h2
    cases bs with
    | nil => simp [charListLe] at h1
    | cons b bs =>
      cases cs with
      | nil => simp [charListLe] at h2
      | cons c cs =>
        simp only [charListLe] at h1 h2 ⊢
        by_cases hab1 : a.toNat < b.toNat <;> by_cases hab2 : b.toNat < a.toNat <;>
          by_cases hbc1 : b.toNat < c.toNat <;> by_cases hbc2 : c.toNat < b.toNat <;>
          by_cases hac1 : a.toNat < c.toNat <;> by_cases hac2 : c.toNat < a.toNat <;>
          simp_all <;> first
            | omega
            | exact ih bs cs h1 h2
            | exact Or.inr (ih bs cs h1 h2)

lemma mem_insertSortedBy (le : String → String → Bool) (x : String) :
    ∀ (l : List String) (z : String),
      z ∈ insertSortedBy le x l ↔ z = x ∨ z ∈ l := by
  intro l
  induction l with
  | nil => intro z; simp [insertSortedBy]
  | cons y ys ih =>
    intro z
    by_cases h : le y x = true
    · simp only [insertSortedBy]
      rw [if_pos h]
      simp only [List.mem_cons, ih]
      tauto
    · simp only [insertSortedBy]
      rw [if_neg h]
      simp only [List.mem_cons]
      try tauto

lemma pairwise_insertSortedBy (le : String → String → Bool)
    (htrans : ∀ a b c, le a b = true → le b c = true → le a c = true)
    (htot : ∀ a b, le a b = true ∨ le b a = true) (x : String) :
    ∀ l, l.Pairwise (fun a b => le a b = true) →
      (insertSortedBy le x l).Pairwise (fun a b => le a b = true) := by
  intro l
  induction l with
  | nil => intro _; simp [insertSortedBy]
  | cons y ys ih =>
    intro hp
    rcases List.pairwise_cons.mp hp with ⟨hy, hys⟩
    by_cases h : le y x = true
    · simp only [insertSortedBy, h, if_pos]
      refine List.pairwise_cons.mpr ⟨?_, ih hys⟩
      intro z hz
      rcases (mem_insertSortedBy le x ys z).mp hz with rfl | hzys
      · exact h
      · exact hy z hzys
    · simp only [insertSortedBy, h, if_neg]
      have hxy : le x y = true := by
        rcases htot x y with h1 | h1
        · exact h1
        · exact absurd h1 h
      refine List.pairwise_cons.mpr ⟨?_, hp⟩
      intro z hz
      rcases List.mem_cons.mp hz with rfl | hzys
      · exact hxy
      · exact htrans x y z hxy (hy z hzys)

lemma pairwise_pySortedBy (le : String → String → Bool)
    (htrans : ∀ a b c, le a b = true → le b c = true → le a c = true)
    (htot : ∀ a b, le a b = true ∨ le b a = true) (l : List String) :
    (pySortedBy le l).Pairwise (fun a b => le a b = true) := by
  have main : ∀ (l : List String) (acc : List String),
      acc.Pairwise (fun a b => le a b = true) →
      (l.foldl (fun acc x => insertSortedBy le x acc) acc).Pairwise
        (fun a b => le a b = true) := by
    intro l
    induction l with
    | nil => intro acc h; exact h
    | cons x xs ih =>
      intro acc h
      exact ih _ (pairwise_insertSortedBy le htrans htot x acc h)
  exact main l [] (by simp)

lemma lowerLe_trans :
    ∀ a b c, lowerLe a b = true → lowerLe b c = true → lowerLe a c = true := by
  intro a b c h1 h2
  exact charListLe_trans _ _ _ h1 h2

lemma lowerLe_total : ∀ a b, lowerLe a b = true ∨ lowerLe b a = true := by
  intro a b
  exact charListLe_total _ _

lemma list_supported_files_sorted (listing : List String) :
    (list_supported_files listing).Pairwise (fun a b => lowerLe a b = true) :=
  pairwise_pySortedBy lowerLe lowerLe_trans lowerLe_total _

lemma filesForStrategy_sorted (baseDir : String) (env : BatchEnv)
    (strat : Strategy) :
    (filesForStrategy baseDir env strat).Pairwise
      (fun a b => lowerLe a b = true) := by
  unfold filesForStrategy
  dsimp only
  split <;> split <;> exact list_supported_files_sorted _

lemma utf8DecodeAux_ascii (err : List Char) :
    ∀ (fuel : Nat) (data : List Nat), data.length ≤ fuel →
      (∀ b ∈ data, b < 128) →
      utf8DecodeAux err fuel data = data.map Char.ofNat := by
  intro fuel
  induction fuel with
  | zero =>
    intro data h _
    cases data with
    | nil => rfl
    | cons b rest => simp at h
  | succ f ih =>
    intro data h hall
    cases data with
    | nil => rfl
    | cons b rest =>
      have hb : b < 128 := hall b (by simp)
      simp only [utf8DecodeAux, if_pos hb, List.map_cons]
      rw [ih rest (by simp at h; omega) (fun x hx => hall x (by simp [hx]))]

lemma utf8DecodeAux_invalid :
    ∀ (fuel : Nat) (data : List Nat),
      (∀ b ∈ data, 0xF5 ≤ b) →
      utf8DecodeAux [] fuel data = [] := by
  intro fuel
  induction fuel with
  | zero =>
    intro data _
    cases data with
    | nil => rfl
    | cons b rest => rfl
  | succ f ih =>
    intro data hall
    cases data with
    | nil => rfl
    | cons b rest =>
      have hb : 0xF5 ≤ b := hall b (by simp)
      have h1 : ¬ b < 0x80 := by omega
      have h2 : ¬ (0xC2 ≤ b && b ≤ 0xDF) = true := by simp; omega
      have h3 : ¬ (0xE0 ≤ b && b ≤ 0xEF) = true := by simp; omega
      have h4 : ¬ (0xF0 ≤ b && b ≤ 0xF4) = true := by simp; omega
      simp only [utf8DecodeAux, if_neg h1, if_neg h2, if_neg h3, if_neg h4,
        List.nil_append]
      exact ih rest (fun x hx => hall x (by simp [hx]))

lemma head_push_mem_log (ts u st sv : String) (log : List RunLogEntry) :
    (_push_mem_log ts u st sv log).head? = some ⟨ts, u, st, sv⟩ := by
  rw [_push_mem_log, show (50 : Nat) = 49 + 1 from rfl, List.take_succ_cons]
  rfl

lemma mainRows_eq_flatMap (userId baseDir : String) (strategies : List Strategy)
    (chosenNames : List String) (env : BatchEnv) :
    mainRows userId strategies chosenNames baseDir env =
      (strategies.filter (fun s => chosenNames.contains s.name)).flatMap
        (fun strat => (filesForStrategy baseDir env strat).flatMap
          (fun f => (processFile userId strat f (env.textOf f)).1)) := by
  unfold mainRows
  have main : ∀ (cs : List Strategy) (acc : List Row),
      cs.foldl
        (fun acc strat =>
          let files := filesForStrategy baseDir env strat
          if files.isEmpty then acc
          else files.foldl
            (fun acc2 f => acc2 ++ (processFile userId strat f (env.textOf f)).1)
            acc)
        acc =
      acc ++ cs.flatMap
        (fun strat => (filesForStrategy baseDir env strat).flatMap
          (fun f => (processFile userId strat f (env.textOf f)).1)) := by
    intro cs
    induction cs with
    | nil => intro acc; simp
    | cons c cs ih =>
      intro acc
      simp only [List.foldl_cons, List.flatMap_cons]
      rw [ih]
      by_cases hc : (filesForStrategy baseDir env c).isEmpty
      · have hnil : filesForStrategy baseDir env c = [] := by
          simpa using hc
        simp [hnil]
      · have hfold := foldl_append_eq_flatMap
          (fun f => (processFile userId c f (env.textOf f)).1)
          (filesForStrategy baseDir env c) acc
        simp only [hc, Bool.false_eq_true, if_false, hfold, List.append_assoc]
  exact main _ []

/-! ## Claim theorems -/

/-- C9: for every parseable word-processing document, the extracted text is
the newline join of the non-empty paragraph texts in document order followed
by the non-empty table cell texts in row-major left-to-right order, with
empty paragraphs and cells skipped; in particular the document with
paragraphs Policy A, empty, Policy B and one 1x2 table x, y extracts to
"Policy A\nPolicy B\nx\ny", also through the dispatcher for a .docx file. -/
theorem C9_docx_extraction :
    (∀ doc : DocxDoc,
      _extract_docx_bytes (some doc) =
        String.intercalate "\n"
          (doc.paragraphs.filter (fun p => p ≠ "") ++
            (doc.tables.flatMap (fun t => t.flatMap id)).filter (fun c => c ≠ ""))) ∧
    _extract_docx_bytes (some c9Doc) = "Policy A\nPolicy B\nx\ny" ∧
    extract_text_and_preview_bytes "policy.docx" [] ⟨none, none, some c9Doc⟩ "previews" =
      ("Policy A\nPolicy B\nx\ny", none) := by
  refine ⟨?_, by decide, by decide⟩
  intro doc
  show String.intercalate "\n" _ = _
  rw [foldl_filter_append, docx_tables_fold]
  simp

/-- C2 counterexample: the plain-text extractor decodes with
errors="ignore", so the undecodable byte 0xFF in A,0xFF,B is dropped and the
result is "AB" (2 characters), whereas the replacement decoding the claim
describes yields A,U+FFFD,B; the two differ, refuting "replaced (not
dropped)". -/
theorem C2_counterexample :
    pyDecodeIgnore [65, 255, 66] = "AB" ∧
    specDecodeReplace [65, 255, 66] =
      String.mk [Char.ofNat 65, Char.ofNat 0xFFFD, Char.ofNat 66] ∧
    pyDecodeIgnore [65, 255, 66] ≠ specDecodeReplace [65, 255, 66] ∧
    (extract_text_and_preview_bytes "f.txt" [65, 255, 66] failEnv "previews").1 =
      "AB" := by
  decide

/-- C2 (amended): for plain-text extensions the bytes are decoded lossily and
without raising, with undecodable byte sequences dropped (errors="ignore"),
not replaced; ASCII bytes decode to themselves, so a file holding exactly
"ABC123" extracts to "ABC123". -/
theorem C2_text_decoding :
    (∀ data : List Nat, (∀ b ∈ data, b < 128) →
      pyDecodeIgnore data = String.mk (data.map Char.ofNat)) ∧
    (∀ (env : ExtractEnv) (pd : String),
      extract_text_and_preview_bytes "f.txt" abc123Bytes env pd = ("ABC123", none)) ∧
    (∀ (fname pd : String) (data : List Nat) (env : ExtractEnv),
      TEXT_EXTS.contains (pyLower (pySuffix fname)) = true →
      extract_text_and_preview_bytes fname data env pd = (pyDecodeIgnore data, none)) ∧
    pyDecodeIgnore [65, 255, 66] = "AB" := by
  have h3 : ∀ (fname pd : String) (data : List Nat) (env : ExtractEnv),
      TEXT_EXTS.contains (pyLower (pySuffix fname)) = true →
      extract_text_and_preview_bytes fname data env pd = (pyDecodeIgnore data, none) := by
    intro fname pd data env h
    have hmem : pyLower (pySuffix fname) ∈ TEXT_EXTS := by
      simpa using h
    simp only [TEXT_EXTS, List.mem_cons, List.not_mem_nil, or_false] at hmem
    rcases hmem with he | he | he | he | he | he | he | he | he <;>
      simp [extract_text_and_preview_bytes, he, IMAGE_EXTS, TEXT_EXTS]
  refine ⟨?_, ?_, h3, by decide⟩
  · intro data hall
    unfold pyDecodeIgnore utf8DecodeWith
    rw [utf8DecodeAux_ascii [] data.length data le_rfl hall]
  · intro env pd
    rw [h3 "f.txt" pd abc123Bytes env (by decide)]
    decide

/-- C3 counterexample: for the image extension .png with corrupt bytes (the
image decoder raises and OCR yields nothing), extraction returns empty text
but writes and reports the verbatim preview copy previews/f.png, refuting
preview = None for every supported extension. -/
theorem C3_counterexample :
    extract_text_and_preview_bytes "f.png" [0] failEnv "previews" =
      ("", some "previews/f.png") ∧
    some "previews/f.png" ≠ (none : Option String) := by
  decide

/-- C3 (amended): extraction is total (never raises) and corrupt content
degrades to empty text; the preview is None for the PDF, word-processing and
plain-text extensions, but for image extensions a preview — the verbatim byte
copy at previewsDir/filename — is always produced, corrupt bytes included.
For plain-text extensions decoding cannot fail; bytes with no decodable part
(here all bytes at least 0xF5) give exactly ("", None). -/
theorem C3_corrupt_extraction :
    (∀ (fname pd : String) (data : List Nat),
      IMAGE_EXTS.contains (pyLower (pySuffix fname)) = true →
      extract_text_and_preview_bytes fname data failEnv pd =
        ("", some (pd ++ "/" ++ fname))) ∧
    (∀ (fname pd : String) (data : List Nat),
      pyLower (pySuffix fname) = ".pdf" →
      extract_text_and_preview_bytes fname data failEnv pd = ("", none)) ∧
    (∀ (fname pd : String) (data : List Nat),
      pyLower (pySuffix fname) = ".docx" →
      extract_text_and_preview_bytes fname data failEnv pd = ("", none)) ∧
    (∀ (fname pd : String) (data : List Nat) (env : ExtractEnv),
      TEXT_EXTS.contains (pyLower (pySuffix fname)) = true →
      (∀ b ∈ data, 0xF5 ≤ b) →
      extract_text_and_preview_bytes fname data env pd = ("", none)) := by
  refine ⟨?_, ?_, ?_, ?_⟩
  · intro fname pd data h
    have hmem : pyLower (pySuffix fname) ∈ IMAGE_EXTS := by
      simpa using h
    simp only [IMAGE_EXTS, List.mem_cons, List.not_mem_nil, or_false] at hmem
    rcases hmem with he | he | he | he | he | he | he <;>
      simp [extract_text_and_preview_bytes, he, IMAGE_EXTS, failEnv,
        _ocr_image_bytes]
  · intro fname pd data h
    simp [extract_text_and_preview_bytes, h, IMAGE_EXTS, failEnv,
      _extract_pdf_bytes]
  · intro fname pd data h
    simp [extract_text_and_preview_bytes, h, IMAGE_EXTS, failEnv,
      _extract_docx_bytes]
  · intro fname pd data env h hdata
    have hmem : pyLower (pySuffix fname) ∈ TEXT_EXTS := by
      simpa using h
    have hdec : pyDecodeIgnore data = "" := by
      unfold pyDecodeIgnore utf8DecodeWith
      rw [utf8DecodeAux_invalid data.length data hdata]
    simp only [TEXT_EXTS, List.mem_cons, List.not_mem_nil, or_false] at hmem
    rcases hmem with he | he | he | he | he | he | he | he | he <;>
      simp [extract_text_and_preview_bytes, he, IMAGE_EXTS, TEXT_EXTS, hdec]

/-- Witness for C2 at concrete inputs: the ASCII bytes 65, 66 and a .log
file. -/
theorem C2_text_decoding_witness :
    pyDecodeIgnore [65, 66] = String.mk ([65, 66].map Char.ofNat) ∧
    extract_text_and_preview_bytes "notes.log" [65, 66] failEnv "previews" =
      (pyDecodeIgnore [65, 66], none) :=
  ⟨C2_text_decoding.1 [65, 66] (by decide),
   C2_text_decoding.2.2.1 "notes.log" "previews" [65, 66] failEnv (by decide)⟩

/-- Witness for C3 at concrete corrupt inputs for each format family. -/
theorem C3_corrupt_extraction_witness :
    extract_text_and_preview_bytes "shot.jpg" [0] failEnv "p" =
      ("", some "p/shot.jpg") ∧
    extract_text_and_preview_bytes "doc.pdf" [0] failEnv "p" = ("", none) ∧
    extract_text_and_preview_bytes "m.docx" [0] failEnv "p" = ("", none) ∧
    extract_text_and_preview_bytes "n.txt" [250] failEnv "p" = ("", none) :=
  ⟨C3_corrupt_extraction.1 "shot.jpg" "p" [0] (by decide),
   C3_corrupt_extraction.2.1 "doc.pdf" "p" [0] (by decide),
   C3_corrupt_extraction.2.2.1 "m.docx" "p" [0] (by decide),
   C3_corrupt_extraction.2.2.2 "n.txt" "p" [250] failEnv (by decide) (by decide)⟩

/-- C1 counterexample: in the batch scanner, a legacy-contract strategy with
non-empty hits on non-blank text yields one row whose Pass/Fail column is
"HIT" (with Priority "Medium" and the hits joined by a comma), not the
all-blank structured fields the claim states for the pipeline. -/
theorem C1_counterexample :
    (processFile "u" c1LegacyStrategy "f.txt" "some text").1.map Row.passFail =
      ["HIT"] ∧
    (processFile "u" c1LegacyStrategy "f.txt" "some text").1.map Row.priority =
      ["Medium"] ∧
    ("HIT" : String) ≠ "" := by
  decide

/-- C1 (amended): for a legacy-contract strategy on non-blank extracted text,
the UI scan endpoint synthesizes exactly one Finding with all structured
fields blank and evidence equal to the raw hits when the hits are non-empty,
and no Finding when they are empty; the batch scanner instead appends exactly
one row with Pass/Fail "HIT", Priority "Medium", recommendation
"Heuristic match." and the hits joined by ", " when the hits are non-empty,
and a NO_MATCH sentinel when they are empty. -/
theorem C1_legacy_adapter :
    (∀ (strategies : List Strategy) (name userId fname : String)
        (content : List Nat) (env : ExtractEnv) (pd : String)
        (pn : Nat → String) (s : Strategy) (m : String → List String),
      strategies.find? (fun t => t.name = name) = some s →
      s.matcher = Matcher.legacy m →
      content.isEmpty = false →
      isBlank (extract_text_and_preview_bytes fname content env pd).1 = false →
      (scan strategies name userId fname content env pd pn).1 =
        (if (m (extract_text_and_preview_bytes fname content env pd).1).isEmpty then
          ScanResponse.ok [] []
        else
          ScanResponse.ok
            [uiLegacyFinding (m (extract_text_and_preview_bytes fname content env pd).1)]
            [pn 0])) ∧
    (∀ (userId fname text : String) (s : Strategy) (m : String → List String),
      s.matcher = Matcher.legacy m →
      isBlank text = false →
      (processFile userId s fname text).1 =
        (if (m text).isEmpty then [NO_MATCH_row userId fname s.name]
         else [HIT_row userId fname s.name (m text)])) := by
  constructor
  · intro strategies name userId fname content env pd pn s m hfind hmatch hcontent hblank
    unfold scan
    rw [hfind]
    simp only [hcontent, Bool.false_eq_true, if_false, hblank, hmatch]
    by_cases hm : (m (extract_text_and_preview_bytes fname content env pd).1).isEmpty
    · simp [hm]
    · simp [hm, List.range_succ]
  · intro userId fname text s m hmatch hblank
    unfold processFile
    rw [hblank, hmatch]
    by_cases hm : (m text).isEmpty
    · simp [hm]
    · simp [hm]

/-- Witness for C1 at a concrete run: strategy s1 with hits alpha, beta on the
text decoded from byte 104, through both pipelines. -/
theorem C1_legacy_adapter_witness :
    (scan [c1LegacyStrategy] "s1" "u" "f.txt" [104] failEnv "previews"
        (fun _ => "r.pdf")).1 =
      ScanResponse.ok [uiLegacyFinding ["alpha", "beta"]] ["r.pdf"] ∧
    (processFile "u" c1LegacyStrategy "f.txt" "some text").1 =
      [HIT_row "u" "f.txt" "s1" ["alpha", "beta"]] := by
  constructor
  · have h := C1_legacy_adapter.1 [c1LegacyStrategy] "s1" "u" "f.txt" [104]
      failEnv "previews" (fun _ => "r.pdf") c1LegacyStrategy
      (fun _ => ["alpha", "beta"]) rfl rfl (by decide) (by decide)
    simpa using h
  · have h := C1_legacy_adapter.2 "u" "f.txt" "some text" c1LegacyStrategy
      (fun _ => ["alpha", "beta"]) rfl (by decide)
    simpa using h

/-- C4: whenever the extracted text is blank (empty or whitespace only), the
batch scanner emits exactly the one NO_TEXT sentinel row with Low priority
and the fixed re-submission recommendation, the rule engine is invoked zero
times and the outcome does not depend on the matcher at all; the UI endpoint
likewise returns the no-readable-text note without running rules. -/
theorem C4_no_text :
    (∀ (userId fname rawText : String) (s : Strategy),
      isBlank rawText = true →
      processFile userId s fname rawText = ([NO_TEXT_row userId fname s.name], 0)) ∧
    (∀ (userId fname rawText name : String) (m1 m2 : Matcher),
      isBlank rawText = true →
      processFile userId ⟨name, m1⟩ fname rawText =
        processFile userId ⟨name, m2⟩ fname rawText) ∧
    (∀ (strategies : List Strategy) (name userId fname : String)
        (content : List Nat) (env : ExtractEnv) (pd : String)
        (pn : Nat → String) (s : Strategy),
      strategies.find? (fun t => t.name = name) = some s →
      content.isEmpty = false →
      isBlank (extract_text_and_preview_bytes fname content env pd).1 = true →
      (scan strategies name userId fname content env pd pn).1 =
        ScanResponse.noTextNote) := by
  refine ⟨?_, ?_, ?_⟩
  · intro userId fname rawText s h
    unfold processFile
    rw [h]
    simp
  · intro userId fname rawText name m1 m2 h
    unfold processFile
    rw [h]
    simp
  · intro strategies name userId fname content env pd pn s hfind hcontent hblank
    unfold scan
    rw [hfind]
    simp only [hcontent, Bool.false_eq_true, if_false, hblank]
    simp

/-- Witness for C4 at whitespace-only text and at an upload whose bytes are
wholly undecodable. -/
theorem C4_no_text_witness :
    processFile "u" c1LegacyStrategy "f.png" " \t " =
      ([NO_TEXT_row "u" "f.png" "s1"], 0) ∧
    (scan [c1LegacyStrategy] "s1" "u" "f.txt" [255] failEnv "previews"
        (fun _ => "r.pdf")).1 = ScanResponse.noTextNote :=
  ⟨C4_no_text.1 "u" "f.png" " \t " c1LegacyStrategy (by decide),
   C4_no_text.2.2 [c1LegacyStrategy] "s1" "u" "f.txt" [255] failEnv "previews"
     (fun _ => "r.pdf") c1LegacyStrategy rfl (by decide) (by decide)⟩

/-- C5: on non-blank text, a strategy whose matching capability yields zero
findings (rich engine returning no findings, or legacy engine returning no
hits) makes the batch scanner emit exactly the one NO_MATCH sentinel row with
Low priority and the fixed no-rule-matched recommendation, after invoking the
engine once; and every (file, strategy) pair processed yields at least one
row. -/
theorem C5_no_match :
    (∀ (userId fname rawText : String) (s : Strategy)
        (emit : String → String → List Finding),
      isBlank rawText = false → s.matcher = Matcher.rich emit →
      emit rawText fname = [] →
      processFile userId s fname rawText = ([NO_MATCH_row userId fname s.name], 1)) ∧
    (∀ (userId fname rawText : String) (s : Strategy) (m : String → List String),
      isBlank rawText = false → s.matcher = Matcher.legacy m →
      m rawText = [] →
      processFile userId s fname rawText = ([NO_MATCH_row userId fname s.name], 1)) ∧
    (∀ (userId fname rawText : String) (s : Strategy),
      1 ≤ (processFile userId s fname rawText).1.length) := by
  refine ⟨?_, ?_, ?_⟩
  · intro userId fname rawText s emit hblank hmatch hemit
    unfold processFile
    rw [hblank, hmatch]
    simp [hemit]
  · intro userId fname rawText s m hblank hmatch hm
    unfold processFile
    rw [hblank, hmatch]
    simp [hm]
  · intro userId fname rawText s
    unfold processFile
    by_cases hblank : isBlank rawText
    · simp [hblank]
    · simp only [hblank, Bool.false_eq_true, if_false]
      cases s.matcher with
      | rich emit =>
        dsimp only
        by_cases hr : ((emit rawText fname).map
            (finding_row userId fname s.name)).length = 0
        · simp [hr]
        · simp only [hr, if_false]
          omega
      | legacy m =>
        dsimp only
        by_cases hm : (m rawText).isEmpty
        · simp [hm]
        · simp [hm]

/-- Witness for C5 at a never-matching legacy strategy on the text x. -/
theorem C5_no_match_witness :
    processFile "u" c5EmptyLegacy "f.txt" "x" =
      ([NO_MATCH_row "u" "f.txt" "s2"], 1) ∧
    1 ≤ (processFile "u" c5EmptyLegacy "f.txt" "x").1.length :=
  ⟨C5_no_match.2.1 "u" "f.txt" "x" c5EmptyLegacy (fun _ => []) (by decide) rfl rfl,
   C5_no_match.2.2 "u" "f.txt" "x" c5EmptyLegacy⟩

/-- C6: the run log never exceeds 50 entries; pushing any sequence of entries
into the empty log leaves exactly the newest 50 in newest-first order, so
after 51 sequential appends exactly 50 remain and the first (oldest) appended
entry is the one evicted; the snapshot endpoint returns the current entries
newest-first and leaves the buffer unchanged. (The constant-time cost of one
append is a documented property of the underlying deque, outside this
model.) -/
theorem C6_run_log :
    (∀ (es log : List RunLogEntry), log.length ≤ 50 →
      (memPushAll es log).length ≤ 50) ∧
    (∀ es : List RunLogEntry, memPushAll es [] = es.reverse.take 50) ∧
    (∀ es : List RunLogEntry, es.length = 51 →
      memPushAll es [] = (es.drop 1).reverse ∧ (memPushAll es []).length = 50) ∧
    (∀ log : List RunLogEntry, api_get_scan_mem_log log = (log, log)) := by
  have hbase : ∀ es : List RunLogEntry, memPushAll es [] = es.reverse.take 50 := by
    intro es
    rw [memPushAll_eq es [] (by simp)]
    simp
  refine ⟨?_, hbase, ?_, fun log => rfl⟩
  · intro es log h
    rw [memPushAll_eq es log h]
    simp
  · intro es h
    have hdrop : memPushAll es [] = (es.drop 1).reverse := by
      rw [hbase es, List.reverse_drop]
      simp [h]
    refine ⟨hdrop, ?_⟩
    rw [hdrop]
    simp [h]

/-- Witness for C6 at 51 concrete appends into the empty log. -/
theorem C6_run_log_witness :
    c6Entries.length = 51 ∧
    memPushAll c6Entries [] = (c6Entries.drop 1).reverse ∧
    (memPushAll c6Entries []).length = 50 :=
  ⟨by decide, C6_run_log.2.2.1 c6Entries (by decide)⟩

/-- C7: an unknown strategy name is rejected with HTTP 400 before anything
else and with no files written and no findings; a known strategy with an
empty upload is likewise rejected with HTTP 400 and no side effects; in both
cases the outcome is independent of the extraction oracles and the report
generator, so no extraction is attempted. -/
theorem C7_fail_fast :
    (∀ (strategies : List Strategy) (name userId fname : String)
        (content : List Nat) (env : ExtractEnv) (pd : String) (pn : Nat → String),
      strategies.find? (fun s => s.name = name) = none →
      scan strategies name userId fname content env pd pn =
        (ScanResponse.httpError 400 ("Unknown strategy: " ++ name), [])) ∧
    (∀ (strategies : List Strategy) (name userId fname : String)
        (content : List Nat) (env : ExtractEnv) (pd : String) (pn : Nat → String)
        (s : Strategy),
      strategies.find? (fun t => t.name = name) = some s →
      content.isEmpty = true →
      scan strategies name userId fname content env pd pn =
        (ScanResponse.httpError 400 "Empty upload", [])) ∧
    (∀ (strategies : List Strategy) (name userId fname : String)
        (content : List Nat) (env1 env2 : ExtractEnv) (pd : String)
        (pn1 pn2 : Nat → String),
      strategies.find? (fun s => s.name = name) = none ∨ content.isEmpty = true →
      scan strategies name userId fname content env1 pd pn1 =
        scan strategies name userId fname content env2 pd pn2) := by
  refine ⟨?_, ?_, ?_⟩
  · intro strategies name userId fname content env pd pn hfind
    unfold scan
    rw [hfind]
  · intro strategies name userId fname content env pd pn s hfind hcontent
    unfold scan
    rw [hfind]
    simp [hcontent]
  · intro strategies name userId fname content env1 env2 pd pn1 pn2 h
    rcases h with hfind | hcontent
    · unfold scan
      rw [hfind]
    · cases hfind : strategies.find? (fun s => s.name = name) with
      | none => unfold scan; rw [hfind]
      | some s =>
        unfold scan
        rw [hfind]
        simp [hcontent]

/-- Witness for C7: an empty registry rejects any name; a known strategy
rejects the empty upload; both outcomes ignore the oracles. -/
theorem C7_fail_fast_witness :
    scan [] "x" "u" "f.txt" [1] failEnv "p" (fun _ => "r.pdf") =
      (ScanResponse.httpError 400 ("Unknown strategy: " ++ "x"), []) ∧
    scan [c1LegacyStrategy] "s1" "u" "f.txt" [] failEnv "p" (fun _ => "r.pdf") =
      (ScanResponse.httpError 400 "Empty upload", []) ∧
    scan [] "x" "u" "f.txt" [1] failEnv "p" (fun _ => "a.pdf") =
      scan [] "x" "u" "f.txt" [1] ⟨some "t", none, none⟩ "p" (fun _ => "b.pdf") :=
  ⟨C7_fail_fast.1 [] "x" "u" "f.txt" [1] failEnv "p" (fun _ => "r.pdf") rfl,
   C7_fail_fast.2.1 [c1LegacyStrategy] "s1" "u" "f.txt" [] failEnv "p"
     (fun _ => "r.pdf") c1LegacyStrategy rfl rfl,
   C7_fail_fast.2.2 [] "x" "u" "f.txt" [1] failEnv ⟨some "t", none, none⟩ "p"
     (fun _ => "a.pdf") (fun _ => "b.pdf") (Or.inl rfl)⟩

/-- C8 counterexample: with the registry in order alpha, beta and the user
choosing beta then alpha, the rows of the run start with alpha — the outer
loop follows registry order, because chosen_strategies filters the registry
list against the set of chosen names — while the ordering the claim states
(specOrderedRows, outer loop in the order the user chose) starts with beta. -/
theorem C8_counterexample :
    mainRows "u" [c8StratA, c8StratB] ["beta", "alpha"] "evidence" c8Env ≠
      specOrderedRows "u" [c8StratA, c8StratB] ["beta", "alpha"] "evidence" c8Env ∧
    (mainRows "u" [c8StratA, c8StratB] ["beta", "alpha"] "evidence" c8Env).map
        Row.strategy = ["alpha", "beta"] ∧
    (specOrderedRows "u" [c8StratA, c8StratB] ["beta", "alpha"] "evidence"
        c8Env).map Row.strategy = ["beta", "alpha"] := by
  decide

/-- C8 (amended): the rows of a batch run are, in order, the outer loop over
the selected strategies in registry order (the registry list filtered by the
set of chosen names — not the order the user chose them), the inner loop over
the files of the directory scanned for that strategy sorted by lower-cased
(case-insensitive) file name, innermost one row per finding in emission
order (processFile). -/
theorem C8_row_order :
    (∀ (userId baseDir : String) (strategies : List Strategy)
        (chosenNames : List String) (env : BatchEnv),
      mainRows userId strategies chosenNames baseDir env =
        (strategies.filter (fun s => chosenNames.contains s.name)).flatMap
          (fun strat => (filesForStrategy baseDir env strat).flatMap
            (fun f => (processFile userId strat f (env.textOf f)).1))) ∧
    (∀ (baseDir : String) (env : BatchEnv) (strat : Strategy),
      (filesForStrategy baseDir env strat).Pairwise
        (fun a b => lowerLe a b = true)) :=
  ⟨fun userId baseDir strategies chosenNames env =>
    mainRows_eq_flatMap userId baseDir strategies chosenNames env,
   fun baseDir env strat => filesForStrategy_sorted baseDir env strat⟩

/-- C10 counterexample: a payload with no user key but user_id alice stores
user alice, not the default "user" the claim states for any missing user
field (the status weird is stored unvalidated). -/
theorem C10_counterexample :
    (api_post_scan_mem_log "t0" [("user_id", "alice"), ("status", "weird")]
        []).head? = some ⟨"t0", "alice", "", "weird"⟩ ∧
    ("alice" : String) ≠ "user" := by
  decide

/-- C10 (amended): the run-log append endpoint stores the status string with
no validation against success / error / cancelled; the user field falls back
from user to user_id to "user" when keys are missing or their value is the
empty (falsy) string, strategy falls back from strategy to strategy_name to
"", and a missing status defaults to "success". -/
theorem C10_mem_log_post :
    (∀ (ts : String) (payload : List (String × String)) (log : List RunLogEntry),
      pyGet payload "user" = none → pyGet payload "user_id" = none →
      pyGet payload "strategy" = none → pyGet payload "strategy_name" = none →
      pyGet payload "status" = none →
      (api_post_scan_mem_log ts payload log).head? =
        some ⟨ts, "user", "", "success"⟩) ∧
    (∀ (ts u st sv : String) (payload : List (String × String))
        (log : List RunLogEntry),
      pyGet payload "user" = none → pyGet payload "user_id" = some u → u ≠ "" →
      pyGet payload "strategy" = none → pyGet payload "strategy_name" = some st →
      st ≠ "" →
      pyGet payload "status" = some sv → sv ≠ "" →
      (api_post_scan_mem_log ts payload log).head? = some ⟨ts, u, st, sv⟩) := by
  constructor
  · intro ts payload log hu hui hst hstn hsv
    unfold api_post_scan_mem_log
    rw [hu, hui, hst, hstn, hsv]
    exact head_push_mem_log ts "user" "" "success" log
  · intro ts u st sv payload log hu hui huv hst hstn hstv hsv hsvv
    unfold api_post_scan_mem_log
    rw [hu, hui, hst, hstn, hsv]
    simp only [pyOrStr, if_neg huv, if_neg hstv, if_neg hsvv]
    exact head_push_mem_log ts u st sv log

/-- Witness for C10 at the empty payload and at a payload using only the
alias keys with an unvalidated status value. -/
theorem C10_mem_log_post_witness :
    (api_post_scan_mem_log "t1" [] []).head? =
      some ⟨"t1", "user", "", "success"⟩ ∧
    (api_post_scan_mem_log "t2"
        [("user_id", "alice"), ("strategy_name", "s"), ("status", "weird")]
        []).head? = some ⟨"t2", "alice", "s", "weird"⟩ :=
  ⟨C10_mem_log_post.1 "t1" [] [] rfl rfl rfl rfl rfl,
   C10_mem_log_post.2 "t2" "alice" "s" "weird"
     [("user_id", "alice"), ("strategy_name", "s"), ("status", "weird")] []
     rfl rfl (by decide) rfl rfl (by decide) rfl (by decide)⟩

end AutoAudit
